import Mathlib

/-!
Verification of the Anime_Ranker rating and matchmaking engine.

The definitions below are a shallow embedding of the Python sources
(`config.py`, `services.py`, `rating.py`, `routers/battle.py`): Python floats
are idealized as real numbers, database rows as Lean lists, and the
`ORDER BY random()` draws of the store become explicit oracle arguments.
-/

namespace AnimeRanker

noncomputable section

/-- Embeds `config.py` `Settings.ELO_K_MAX`. -/
def ELO_K_MAX : ℝ := 60

/-- Embeds `config.py` `Settings.ELO_K_MIN`. -/
def ELO_K_MIN : ℝ := 24

/-- Embeds `config.py` `Settings.ELO_DECAY_FACTOR`. -/
def ELO_DECAY_FACTOR : ℝ := 25

/-- Embeds `config.py` `Settings.MATCH_SCORE_RANGE`. -/
def MATCH_SCORE_RANGE : ℝ := 300

/-- Embeds `config.py` `Settings.ELO_DRAW_MAX`. -/
def ELO_DRAW_MAX : ℝ := 0.25

/-- Embeds `config.py` `Settings.ELO_DRAW_SCALE`. -/
def ELO_DRAW_SCALE : ℝ := 400

/-- Embeds Python's builtin `round` to the nearest integer (banker's rounding:
exact halves go to the even neighbour), idealized over exact reals. -/
def roundHalfEven (x : ℝ) : ℤ :=
  if x - ⌊x⌋ = 1 / 2 then (if Even ⌊x⌋ then ⌊x⌋ else ⌊x⌋ + 1) else round x

/-- Embeds Python's `round(x, 1)`: round to one decimal place. -/
def round1 (x : ℝ) : ℝ := (roundHalfEven (x * 10) : ℝ) / 10

/-- Embeds `services.py` `get_dynamic_k_factor`. -/
def get_dynamic_k_factor (matches_played : ℕ) : ℝ :=
  let k_diff := ELO_K_MAX - ELO_K_MIN
  let decay := Real.exp (-(matches_played : ℝ) / ELO_DECAY_FACTOR)
  ELO_K_MIN + k_diff * decay

/-- Embeds `rating.py` `get_k_factor` (the K-factor used by `main.py`'s
`update_elo`-based vote handler). -/
def get_k_factor (matches_played : ℕ) : ℕ :=
  if matches_played < 10 then 64 else 32

/-- Embeds `services.py` `calculate_expected_score` (the exponent is a real
power of 10). -/
def calculate_expected_score (rating_a rating_b : ℝ) : ℝ :=
  1 / (1 + (10 : ℝ) ^ ((rating_b - rating_a) / 400))

/-- Embeds `services.py` `calculate_elo_update`. -/
def calculate_elo_update (rating_a rating_b actual_score : ℝ)
    (matches_a matches_b : ℕ) : ℝ × ℝ :=
  let expected_a := calculate_expected_score rating_a rating_b
  let expected_b := calculate_expected_score rating_b rating_a
  let k_a := get_dynamic_k_factor matches_a
  let k_b := get_dynamic_k_factor matches_b
  (rating_a + k_a * (actual_score - expected_a),
   rating_b + k_b * ((1 - actual_score) - expected_b))

/-- Result shape of `services.py` `get_match_probabilities` (the returned dict
with keys `win_a`, `draw`, `win_b`). -/
structure MatchProbs where
  win_a : ℝ
  draw : ℝ
  win_b : ℝ

/-- Embeds the local `p_draw` of `services.py` `get_match_probabilities`:
`ELO_DRAW_MAX * exp(-((delta / ELO_DRAW_SCALE) ** 2))` with
`delta = abs(rating_a - rating_b)`. -/
def p_draw (rating_a rating_b : ℝ) : ℝ :=
  ELO_DRAW_MAX * Real.exp (-(|rating_a - rating_b| / ELO_DRAW_SCALE) ^ 2)

/-- Embeds the local `p_win_a` of `services.py` `get_match_probabilities`. -/
def p_win_a (rating_a rating_b : ℝ) : ℝ :=
  max 0 (calculate_expected_score rating_a rating_b - 0.5 * p_draw rating_a rating_b)

/-- Embeds the local `p_win_b` of `services.py` `get_match_probabilities`
(`expected_b = 1.0 - expected_a`). -/
def p_win_b (rating_a rating_b : ℝ) : ℝ :=
  max 0 ((1 - calculate_expected_score rating_a rating_b) - 0.5 * p_draw rating_a rating_b)

/-- Embeds the local `total_prob` of `services.py` `get_match_probabilities`. -/
def total_prob (rating_a rating_b : ℝ) : ℝ :=
  p_win_a rating_a rating_b + p_draw rating_a rating_b + p_win_b rating_a rating_b

/-- Embeds `services.py` `get_match_probabilities`, including the defensive
`total_prob == 0` fallback and the `round(_, 1)` on each percentage. -/
def get_match_probabilities (rating_a rating_b : ℝ) : MatchProbs :=
  if total_prob rating_a rating_b = 0 then ⟨0, 100, 0⟩
  else
    ⟨round1 (p_win_a rating_a rating_b / total_prob rating_a rating_b * 100),
     round1 (p_draw rating_a rating_b / total_prob rating_a rating_b * 100),
     round1 (p_win_b rating_a rating_b / total_prob rating_a rating_b * 100)⟩

/-- Result shape of `services.py` `get_anime_rank_info` (the returned dict with
keys `rank`, `total`, `top_percent`). -/
structure RankInfo where
  rank : ℕ
  total : ℕ
  top_percent : ℝ

/-- Embeds `services.py` `get_anime_rank_info`. The population is the list of
the queried category's scores of all items; `total_result.scalar() or 1`
becomes the `if` on the length, and the SQL `count(...) where col > score`
becomes `countP`. -/
def get_anime_rank_info (pop : List ℝ) (score : ℝ) : RankInfo :=
  let total_count := if pop.length = 0 then 1 else pop.length
  let higher_rank_count := pop.countP fun v => decide (score < v)
  let current_rank := higher_rank_count + 1
  let percentile := (current_rank : ℝ) / (total_count : ℝ) * 100
  { rank := current_rank, total := total_count, top_percent := round1 percentile }

/-- The six rating dimensions of `models.py` (`.fn` stands for the source's
"fun" category; `fun` is a Lean keyword). -/
inductive Dim
  | story
  | visual
  | ost
  | voice
  | char
  | fn
  deriving DecidableEq

/-- Embeds the `Anime` row of `models.py`. -/
structure Anime where
  id : ℕ
  name : String
  rating_story : ℝ
  rating_visual : ℝ
  rating_ost : ℝ
  rating_voice : ℝ
  rating_char : ℝ
  rating_fun : ℝ
  matches_played : ℕ
  original_rank : Option ℕ

/-- Embeds the dynamic attribute read `getattr(a, f"rating_{category}")`. -/
def rating (a : Anime) (d : Dim) : ℝ :=
  match d with
  | .story => a.rating_story
  | .visual => a.rating_visual
  | .ost => a.rating_ost
  | .voice => a.rating_voice
  | .char => a.rating_char
  | .fn => a.rating_fun

/-- Embeds the dynamic attribute write `setattr(a, f"rating_{category}", v)`. -/
def setRating (a : Anime) (d : Dim) (v : ℝ) : Anime :=
  match d with
  | .story => { a with rating_story := v }
  | .visual => { a with rating_visual := v }
  | .ost => { a with rating_ost := v }
  | .voice => { a with rating_voice := v }
  | .char => { a with rating_char := v }
  | .fn => { a with rating_fun := v }

/-- Embeds `a.matches_played = n` on a row. -/
def setMatches (a : Anime) (n : ℕ) : Anime := { a with matches_played := n }

/-- The `categories` list of `services.py` `normalize_scores_task`, in source
order. -/
def DIMS : List Dim := [.story, .visual, .ost, .voice, .char, .fn]

/-- Value-level form of one loop iteration of `normalize_scores_task`: what the
per-category mean-reversion does to the list of that category's scores. -/
def normalizeVals (vals : List ℝ) : List ℝ :=
  let current_avg := vals.sum / (vals.length : ℝ)
  let diff := current_avg - 1200
  if 1 < |diff| then vals.map (fun v => v - diff) else vals

/-- One iteration of the category loop of `services.py`
`normalize_scores_task`: mean of the category over all rows, and if the drift
exceeds the threshold `1.0`, the bulk relative update
`column = column - diff`. -/
def normalizeStep (l : List Anime) (d : Dim) : List Anime :=
  let current_avg := (l.map fun a => rating a d).sum / (l.length : ℝ)
  let diff := current_avg - 1200
  if 1 < |diff| then l.map (fun a => setRating a d (rating a d - diff)) else l

/-- Embeds `services.py` `normalize_scores_task`: nothing happens on an empty
population, otherwise each of the six categories is mean-reverted in turn. -/
def normalize_scores_task (l : List Anime) : List Anime :=
  if l.isEmpty then l else DIMS.foldl normalizeStep l

/-- Models a `SELECT ... ORDER BY random() LIMIT 1` draw: an arbitrary element
of the list, driven by an external random seed `r`; `none` exactly when the
list is empty. -/
def pick (l : List Anime) (r : ℕ) : Option Anime := l.get? (r % l.length)

/-- Embeds `services.py` `get_match_pair`. The random draws become oracle
arguments: `use_smart` is the result of `random.random() < MATCH_SMART_RATE`
and `r1 r2 r3` drive the three `ORDER BY random()` queries. Python's
`if focus_id:` is truthiness on an optional int, hence the `getD 0` test
(`None` and `0` both fall to the random path). -/
def get_match_pair (pop : List Anime) (focus_id : Option ℕ) (use_smart : Bool)
    (r1 r2 r3 : ℕ) : Option Anime × Option Anime :=
  let anime1 : Option Anime :=
    if focus_id.getD 0 ≠ 0 then pop.find? fun a => a.id == focus_id.getD 0
    else pick pop r1
  match anime1 with
  | none => (none, none)
  | some a1 =>
    let smartPool := pop.filter fun a =>
      a.id != a1.id && decide (a1.rating_fun - MATCH_SCORE_RANGE ≤ a.rating_fun) &&
        decide (a.rating_fun ≤ a1.rating_fun + MATCH_SCORE_RANGE)
    let anime2 : Option Anime := if use_smart then pick smartPool r2 else none
    match anime2 with
    | some a2 => (some a1, some a2)
    | none => (some a1, pick (pop.filter fun a => a.id != a1.id) r3)

/-- Embeds the `winner` form-field mapping of `routers/battle.py` `vote`
(lines 140-145): `"1"` means A wins, `"2"` means B wins, anything else is
treated as a draw. -/
def actual_score_of (winner : String) : ℝ :=
  if winner = "1" then 1 else if winner = "2" then 0 else 0.5

/-- Embeds the state mutation of `routers/battle.py` `vote`: fetch both
participants by id (404 when either is missing, modeled as `none`), compute the
Elo update on the voted category, write both new scores and bump both match
counters, and commit. The read-only rank/probability queries and the response
body are not part of the store mutation and are omitted; the background
normalizer is a separate task. -/
def vote (pop : List Anime) (anime1_id anime2_id : ℕ) (category : Dim)
    (winner : String) : Option (List Anime) :=
  match pop.find? (fun a => a.id == anime1_id), pop.find? (fun a => a.id == anime2_id) with
  | some a1, some a2 =>
    let old_r1 := rating a1 category
    let old_r2 := rating a2 category
    let nr := calculate_elo_update old_r1 old_r2 (actual_score_of winner)
      a1.matches_played a2.matches_played
    some (pop.map fun a =>
      if a.id = anime1_id then setMatches (setRating a1 category nr.1) (a1.matches_played + 1)
      else if a.id = anime2_id then setMatches (setRating a2 category nr.2) (a2.matches_played + 1)
      else a)
  | _, _ => none

/-- Concrete row used in closed instances: id 1, all ratings at the 1200
baseline, no matches yet. -/
def itemA : Anime := ⟨1, "A", 1200, 1200, 1200, 1200, 1200, 1200, 0, none⟩

/-- Concrete row used in closed instances: id 2, all ratings at the 1200
baseline, no matches yet. -/
def itemB : Anime := ⟨2, "B", 1200, 1200, 1200, 1200, 1200, 1200, 0, none⟩

/-- Concrete row used in closed instances: id 3, all ratings drifted to
1215. -/
def itemDrift : Anime := ⟨3, "C", 1215, 1215, 1215, 1215, 1215, 1215, 0, none⟩

/-! Helper lemmas. -/

theorem roundHalfEven_abs_sub (x : ℝ) : |(roundHalfEven x : ℝ) - x| ≤ 1 / 2 := by
  unfold roundHalfEven
  split_ifs with h h2
  · rw [abs_sub_comm, abs_of_nonneg (by linarith [Int.floor_le x])]
    linarith
  · push_cast
    rw [abs_of_nonneg (by linarith)]
    linarith
  · rw [abs_sub_comm]
    exact abs_sub_round x

theorem roundHalfEven_nonneg (x : ℝ) (hx : 0 ≤ x) : 0 ≤ roundHalfEven x := by
  unfold roundHalfEven
  split_ifs with h h2
  · exact Int.floor_nonneg.mpr hx
  · have := Int.floor_nonneg.mpr hx
    omega
  · rw [round_eq]
    exact Int.floor_nonneg.mpr (by linarith)

theorem round1_abs_sub (x : ℝ) : |round1 x - x| ≤ 1 / 20 := by
  have h := roundHalfEven_abs_sub (x * 10)
  unfold round1
  have : (roundHalfEven (x * 10) : ℝ) / 10 - x = ((roundHalfEven (x * 10) : ℝ) - x * 10) / 10 := by
    ring
  rw [this, abs_div]
  rw [abs_of_nonneg (by norm_num : (0:ℝ) ≤ 10)]
  linarith

theorem round1_nonneg (x : ℝ) (hx : 0 ≤ x) : 0 ≤ round1 x := by
  unfold round1
  have : (0:ℤ) ≤ roundHalfEven (x * 10) := roundHalfEven_nonneg _ (by linarith)
  positivity

theorem roundHalfEven_intCast (n : ℤ) : roundHalfEven (n : ℝ) = n := by
  unfold roundHalfEven
  rw [Int.floor_intCast]
  split_ifs with h h2
  · norm_num at h
  · norm_num at h
  · rw [round_intCast]

theorem roundHalfEven_eq_of {y : ℝ} {n : ℤ} (hl : (n : ℝ) ≤ y) (hu : y < n + 1 / 2) :
    roundHalfEven y = n := by
  have hfl : ⌊y⌋ = n := Int.floor_eq_iff.mpr ⟨hl, by linarith⟩
  unfold roundHalfEven
  rw [hfl]
  rw [if_neg (by intro hc; linarith)]
  rw [round_eq]
  exact Int.floor_eq_iff.mpr ⟨by linarith, by linarith⟩

theorem round1_eq_of {x : ℝ} {n : ℤ} (hl : (n : ℝ) ≤ x * 10) (hu : x * 10 < n + 1 / 2) :
    round1 x = (n : ℝ) / 10 := by
  unfold round1
  rw [roundHalfEven_eq_of hl hu]

theorem expected_score_add (a b : ℝ) :
    calculate_expected_score a b + calculate_expected_score b a = 1 := by
  unfold calculate_expected_score
  have hab : (a - b) / 400 = -((b - a) / 400) := by ring
  rw [hab, Real.rpow_neg (by norm_num : (0:ℝ) ≤ 10)]
  have ht : (0:ℝ) < (10 : ℝ) ^ ((b - a) / 400) :=
    Real.rpow_pos_of_pos (by norm_num) _
  field_simp
  ring

theorem expected_score_self (a : ℝ) : calculate_expected_score a a = 1 / 2 := by
  unfold calculate_expected_score
  rw [sub_self, zero_div, Real.rpow_zero]
  norm_num

theorem get_dynamic_k_factor_pos (m : ℕ) : 0 < get_dynamic_k_factor m := by
  unfold get_dynamic_k_factor ELO_K_MIN ELO_K_MAX
  have := Real.exp_pos (-(m : ℝ) / ELO_DECAY_FACTOR)
  positivity

theorem get_dynamic_k_factor_zero : get_dynamic_k_factor 0 = ELO_K_MAX := by
  unfold get_dynamic_k_factor
  norm_num

/-! Claim theorems. -/

/-- C1: `calculate_elo_update(a, b, s, m_a, m_b)` returns exactly
`(a + K(m_a) * (s - E_A), b + K(m_b) * ((1 - s) - E_B))` with
`E_A = 1 / (1 + 10^((b-a)/400))`, `E_B = 1 - E_A`, each side's K-factor
computed from its own match count; and for two items both at 1200.0 with 0
matches and outcome "A wins", A gains `K_MAX * 0.5` and B loses
`K_MAX * 0.5`. -/
theorem elo_update_formula :
    (∀ a b s : ℝ, ∀ ma mb : ℕ, s = 1 ∨ s = 0.5 ∨ s = 0 →
      calculate_elo_update a b s ma mb =
        (a + get_dynamic_k_factor ma * (s - calculate_expected_score a b),
         b + get_dynamic_k_factor mb * ((1 - s) - (1 - calculate_expected_score a b)))) ∧
    calculate_elo_update 1200 1200 1 0 0 =
      (1200 + ELO_K_MAX * 0.5, 1200 - ELO_K_MAX * 0.5) := by
  constructor
  · intro a b s ma mb _
    unfold calculate_elo_update
    have h := expected_score_add a b
    simp only [Prod.mk.injEq]
    constructor
    · ring_nf
    · have : calculate_expected_score b a = 1 - calculate_expected_score a b := by linarith
      rw [this]
  · unfold calculate_elo_update
    rw [expected_score_self, get_dynamic_k_factor_zero]
    unfold ELO_K_MAX
    simp only [Prod.mk.injEq]
    norm_num

/-- Witness for C1: the formula instantiated at concrete inputs, with the
outcome-validity hypothesis discharged. -/
theorem elo_update_formula_witness :
    ((1:ℝ) = 1 ∨ (1:ℝ) = 0.5 ∨ (1:ℝ) = 0) ∧
    calculate_elo_update 1100 1300 1 2 5 =
      (1100 + get_dynamic_k_factor 2 * (1 - calculate_expected_score 1100 1300),
       1300 + get_dynamic_k_factor 5 * ((1 - 1) - (1 - calculate_expected_score 1100 1300))) :=
  ⟨Or.inl rfl, elo_update_formula.1 1100 1300 1 2 5 (Or.inl rfl)⟩

/-- C8: with equal match counts the update is zero-sum (A's change is exactly
the negative of B's), and for `a = b` with outcome `1.0`, A's rating increases
and B's decreases by equal magnitude. -/
theorem elo_zero_sum :
    (∀ a b s : ℝ, ∀ m : ℕ, s = 1 ∨ s = 0.5 ∨ s = 0 →
      (calculate_elo_update a b s m m).1 - a = -((calculate_elo_update a b s m m).2 - b)) ∧
    (∀ a : ℝ, ∀ m : ℕ,
      (calculate_elo_update a a 1 m m).1 - a = a - (calculate_elo_update a a 1 m m).2 ∧
      a < (calculate_elo_update a a 1 m m).1 ∧
      (calculate_elo_update a a 1 m m).2 < a) := by
  constructor
  · intro a b s m _
    unfold calculate_elo_update
    have h := expected_score_add a b
    have hb : calculate_expected_score b a = 1 - calculate_expected_score a b := by linarith
    simp only [hb]
    ring_nf
  · intro a m
    unfold calculate_elo_update
    rw [expected_score_self]
    have hk := get_dynamic_k_factor_pos m
    refine ⟨by ring, ?_, ?_⟩ <;> simp only <;> nlinarith

/-- Witness for C8: the zero-sum identity instantiated at concrete inputs,
with the outcome-validity hypothesis discharged. -/
theorem elo_zero_sum_witness :
    ((0.5:ℝ) = 1 ∨ (0.5:ℝ) = 0.5 ∨ (0.5:ℝ) = 0) ∧
    (calculate_elo_update 1200 1100 0.5 3 3).1 - 1200 =
      -((calculate_elo_update 1200 1100 0.5 3 3).2 - 1100) :=
  ⟨Or.inr (Or.inl rfl), elo_zero_sum.1 1200 1100 0.5 3 (Or.inr (Or.inl rfl))⟩

/-- C3, counterexample: `rating.py` `get_k_factor` is a two-step function, not
the exponential-decay formula. With the program's configured constants the
formula gives `60` at zero matches while `get_k_factor 0 = 64`; moreover no
choice of `K_min < K_max` and `decay > 0` can make the formula agree with
`get_k_factor` everywhere. -/
theorem step_k_factor_not_exponential :
    (get_k_factor 0 : ℝ) ≠
      ELO_K_MIN + (ELO_K_MAX - ELO_K_MIN) * Real.exp (-(0 : ℝ) / ELO_DECAY_FACTOR) ∧
    ¬ ∃ kmin kmax decay : ℝ, kmin < kmax ∧ 0 < decay ∧
      ∀ m : ℕ, (get_k_factor m : ℝ) =
        kmin + (kmax - kmin) * Real.exp (-(m : ℝ) / decay) := by
  constructor
  · unfold get_k_factor ELO_K_MIN ELO_K_MAX ELO_DECAY_FACTOR
    norm_num
  · rintro ⟨kmin, kmax, decay, hlt, hd, h⟩
    have h0 := h 0
    have h1 := h 1
    rw [show (get_k_factor 0 : ℝ) = 64 by norm_num [get_k_factor]] at h0
    rw [show (get_k_factor 1 : ℝ) = 64 by norm_num [get_k_factor]] at h1
    have hD : kmax - kmin ≠ 0 := by linarith
    have hexp : Real.exp (-(0 : ℝ) / decay) = Real.exp (-(1 : ℝ) / decay) := by
      have := h0.symm.trans h1
      have hmul : (kmax - kmin) * Real.exp (-(0 : ℝ) / decay) =
          (kmax - kmin) * Real.exp (-(1 : ℝ) / decay) := by
        push_cast at this ⊢
        linarith
      exact mul_left_cancel₀ hD hmul
    have harg : -(0 : ℝ) / decay = -(1 : ℝ) / decay := Real.exp_injective hexp
    rw [neg_zero, zero_div] at harg
    have : (1 : ℝ) / decay ≠ 0 := by positivity
    rw [neg_div] at harg
    exact this (by linarith)

/-- C3, amended: `get_dynamic_k_factor` satisfies
`K(m) = K_min + (K_max - K_min) * exp(-m / decay)`, is monotonically
non-increasing, equals `K_MAX` at `m = 0` and tends to `K_MIN` as `m → ∞`;
`rating.py`'s `get_k_factor` is instead the two-step function `64` below 10
matches and `32` from then on, which is monotonically non-increasing but
follows no exponential law. -/
theorem k_factor_shapes :
    (∀ m : ℕ, get_dynamic_k_factor m =
      ELO_K_MIN + (ELO_K_MAX - ELO_K_MIN) * Real.exp (-(m : ℝ) / ELO_DECAY_FACTOR)) ∧
    (∀ m n : ℕ, m ≤ n → get_dynamic_k_factor n ≤ get_dynamic_k_factor m) ∧
    get_dynamic_k_factor 0 = ELO_K_MAX ∧
    Filter.Tendsto (fun m : ℕ => get_dynamic_k_factor m) Filter.atTop (nhds ELO_K_MIN) ∧
    (∀ m n : ℕ, m ≤ n → get_k_factor n ≤ get_k_factor m) ∧
    get_k_factor 0 = 64 ∧
    (∀ m : ℕ, 10 ≤ m → get_k_factor m = 32) := by
  refine ⟨fun m => rfl, ?_, get_dynamic_k_factor_zero, ?_, ?_, rfl, ?_⟩
  · intro m n hmn
    unfold get_dynamic_k_factor ELO_K_MIN ELO_K_MAX ELO_DECAY_FACTOR
    have hcast : (m : ℝ) ≤ (n : ℝ) := Nat.cast_le.mpr hmn
    have hexp : Real.exp (-(n : ℝ) / 25) ≤ Real.exp (-(m : ℝ) / 25) :=
      Real.exp_le_exp.mpr (by linarith)
    norm_num
    linarith
  · have h0 : Filter.Tendsto (fun m : ℕ => (m : ℝ) / ELO_DECAY_FACTOR)
        Filter.atTop Filter.atTop :=
      tendsto_natCast_atTop_atTop.atTop_div_const (by norm_num [ELO_DECAY_FACTOR])
    have h1 : Filter.Tendsto (fun m : ℕ => Real.exp (-((m : ℝ) / ELO_DECAY_FACTOR)))
        Filter.atTop (nhds 0) :=
      Real.tendsto_exp_neg_atTop_nhds_zero.comp h0
    have h2 := (h1.const_mul (ELO_K_MAX - ELO_K_MIN)).const_add ELO_K_MIN
    rw [mul_zero, add_zero] at h2
    refine h2.congr fun m => ?_
    unfold get_dynamic_k_factor
    rw [neg_div]
  · intro m n hmn
    unfold get_k_factor
    split_ifs <;> omega
  · intro m hm
    unfold get_k_factor
    rw [if_neg (by omega)]

/-- Witness for C3's amended theorem: monotonicity instantiated at `0 ≤ 1` for
both K-factor implementations. -/
theorem k_factor_shapes_witness :
    (0 ≤ 1 ∧ get_dynamic_k_factor 1 ≤ get_dynamic_k_factor 0) ∧
    (0 ≤ 1 ∧ get_k_factor 1 ≤ get_k_factor 0) :=
  ⟨⟨by decide, k_factor_shapes.2.1 0 1 (by decide)⟩,
   ⟨by decide, k_factor_shapes.2.2.2.2.1 0 1 (by decide)⟩⟩

/-- C5: the three percentages returned by `get_match_probabilities` are
non-negative and sum to `100.0` within `0.1`, and before rounding the
normalized values sum to exactly `100`. -/
theorem probabilities_sum_bounds : ∀ a b : ℝ,
    0 ≤ (get_match_probabilities a b).win_a ∧
    0 ≤ (get_match_probabilities a b).draw ∧
    0 ≤ (get_match_probabilities a b).win_b ∧
    99.9 ≤ (get_match_probabilities a b).win_a + (get_match_probabilities a b).draw +
      (get_match_probabilities a b).win_b ∧
    (get_match_probabilities a b).win_a + (get_match_probabilities a b).draw +
      (get_match_probabilities a b).win_b ≤ 100.1 ∧
    p_win_a a b / total_prob a b * 100 + p_draw a b / total_prob a b * 100 +
      p_win_b a b / total_prob a b * 100 = 100 := by
  intro a b
  have hpd : 0 < p_draw a b := by
    unfold p_draw ELO_DRAW_MAX
    positivity
  have hpa : 0 ≤ p_win_a a b := le_max_left _ _
  have hpb : 0 ≤ p_win_b a b := le_max_left _ _
  have hT : 0 < total_prob a b := by
    unfold total_prob
    linarith
  have hTne : total_prob a b ≠ 0 := ne_of_gt hT
  have hsum : p_win_a a b / total_prob a b * 100 + p_draw a b / total_prob a b * 100 +
      p_win_b a b / total_prob a b * 100 = 100 := by
    field_simp
    unfold total_prob
    ring
  unfold get_match_probabilities
  rw [if_neg hTne]
  dsimp only
  set A := p_win_a a b / total_prob a b * 100 with hAdef
  set B := p_draw a b / total_prob a b * 100 with hBdef
  set C := p_win_b a b / total_prob a b * 100 with hCdef
  have hAnn : 0 ≤ A := mul_nonneg (div_nonneg hpa hT.le) (by norm_num)
  have hBnn : 0 ≤ B := mul_nonneg (div_nonneg hpd.le hT.le) (by norm_num)
  have hCnn : 0 ≤ C := mul_nonneg (div_nonneg hpb hT.le) (by norm_num)
  have e1 := round1_abs_sub A
  have e2 := round1_abs_sub B
  have e3 := round1_abs_sub C
  rw [abs_le] at e1 e2 e3
  obtain ⟨e1l, e1u⟩ := e1
  obtain ⟨e2l, e2u⟩ := e2
  obtain ⟨e3l, e3u⟩ := e3
  have hz : round1 A + round1 B + round1 C =
      ((roundHalfEven (A * 10) + roundHalfEven (B * 10) + roundHalfEven (C * 10) : ℤ) : ℝ) / 10 := by
    unfold round1
    push_cast
    ring
  set Z : ℤ := roundHalfEven (A * 10) + roundHalfEven (B * 10) + roundHalfEven (C * 10) with hZdef
  have hZu : (Z : ℝ) < 1002 := by linarith
  have hZl : (998 : ℝ) < (Z : ℝ) := by linarith
  have hZu' : Z ≤ 1001 := by
    have : Z < 1002 := by exact_mod_cast hZu
    omega
  have hZl' : 999 ≤ Z := by
    have : 998 < Z := by exact_mod_cast hZl
    omega
  have hSu : round1 A + round1 B + round1 C ≤ 100.1 := by
    rw [hz]
    have : (Z : ℝ) ≤ 1001 := by exact_mod_cast hZu'
    linarith
  have hSl : (99.9 : ℝ) ≤ round1 A + round1 B + round1 C := by
    rw [hz]
    have : (999 : ℝ) ≤ (Z : ℝ) := by exact_mod_cast hZl'
    linarith
  exact ⟨round1_nonneg _ hAnn, round1_nonneg _ hBnn, round1_nonneg _ hCnn, hSl, hSu, hsum⟩

/-- C6, counterexample: the value returned in `top_percent` is the percentile
rounded to one decimal place, not `(rank / totalCount) * 100` itself: on a
three-item population it returns `33.3`, not `100 / 3`. -/
theorem percentile_rounding_counterexample :
    (get_anime_rank_info [1200, 1200, 1200] 1200).top_percent ≠
      ((get_anime_rank_info [1200, 1200, 1200] 1200).rank : ℝ) /
        ((get_anime_rank_info [1200, 1200, 1200] 1200).total : ℝ) * 100 := by
  have hc : (([1200, 1200, 1200] : List ℝ).countP fun v => decide ((1200 : ℝ) < v)) = 0 := by
    rw [List.countP_eq_zero]
    intro a ha
    simp only [List.mem_cons, List.not_mem_nil, or_false] at ha
    have haa : a = 1200 := by rcases ha with h | h | h <;> exact h
    subst haa
    simp only [decide_eq_true_eq]
    norm_num
  unfold get_anime_rank_info
  simp only [hc, List.length_cons, List.length_nil]
  norm_num
  rw [@round1_eq_of ((100 : ℝ) / 3) 333 (by norm_num) (by norm_num)]
  norm_num

/-- C6, amended: the rank calculator returns
`rank = 1 + (count of items strictly greater)` and
`percentile = (rank / totalCount) * 100` rounded to one decimal place; the
`[1000,1100,1200,1300,1400]` scenario yields rank 3 of 5 with percentile
`60.0`, and an item holding the highest score of a non-empty population has
rank 1. -/
theorem rank_percentile_formula :
    (∀ pop : List ℝ, ∀ score : ℝ, pop ≠ [] →
      (get_anime_rank_info pop score).rank = 1 + (pop.countP fun v => decide (score < v)) ∧
      (get_anime_rank_info pop score).total = pop.length ∧
      (get_anime_rank_info pop score).top_percent =
        round1 (((1 + (pop.countP fun v => decide (score < v)) : ℕ) : ℝ) /
          (pop.length : ℝ) * 100)) ∧
    get_anime_rank_info [1000, 1100, 1200, 1300, 1400] 1200 =
      { rank := 3, total := 5, top_percent := 60 } ∧
    (∀ pop : List ℝ, ∀ score : ℝ, pop ≠ [] → (∀ v ∈ pop, v ≤ score) →
      (get_anime_rank_info pop score).rank = 1) := by
  refine ⟨?_, ?_, ?_⟩
  · intro pop score hpop
    have hlen : pop.length ≠ 0 := by
      simpa [List.length_eq_zero] using hpop
    unfold get_anime_rank_info
    rw [if_neg hlen]
    refine ⟨Nat.add_comm _ 1, rfl, ?_⟩
    rw [Nat.add_comm 1 (pop.countP fun v => decide (score < v))]
  · have hc : (([1000, 1100, 1200, 1300, 1400] : List ℝ).countP
        fun v => decide ((1200 : ℝ) < v)) = 2 := by
      simp only [List.countP_cons, List.countP_nil, decide_eq_true_eq]
      norm_num
    unfold get_anime_rank_info
    simp only [hc, List.length_cons, List.length_nil]
    norm_num
    rw [@round1_eq_of (60 : ℝ) 600 (by norm_num) (by norm_num)]
    norm_num
  · intro pop score hpop hmax
    have hc : (pop.countP fun v => decide (score < v)) = 0 := by
      rw [List.countP_eq_zero]
      intro a ha
      simp only [decide_eq_true_eq]
      exact not_lt.mpr (hmax a ha)
    unfold get_anime_rank_info
    simp [hc]

/-- Witness for C6's amended theorem: the formula instantiated on a singleton
population, with the non-emptiness hypothesis discharged. -/
theorem rank_percentile_formula_witness :
    (([1200] : List ℝ) ≠ [] ∧
      (get_anime_rank_info [1200] 1200).total = ([1200] : List ℝ).length) ∧
    (([1200] : List ℝ) ≠ [] ∧ (∀ v ∈ ([1200] : List ℝ), v ≤ 1200) ∧
      (get_anime_rank_info [1200] 1200).rank = 1) :=
  ⟨⟨by simp, (rank_percentile_formula.1 [1200] 1200 (by simp)).2.1⟩,
   ⟨by simp, by simp, rank_percentile_formula.2.2 [1200] 1200 (by simp)
      (by intro v hv; simp at hv; simp [hv])⟩⟩

/-- C10: on an empty population the rank calculator substitutes a total of 1
(`total_result.scalar() or 1`) and returns rank 1, total 1, percentile 100.0;
the reported total is never 0. -/
theorem rank_empty_population_safe :
    (∀ score : ℝ, get_anime_rank_info [] score =
      { rank := 1, total := 1, top_percent := 100 }) ∧
    (∀ pop : List ℝ, ∀ score : ℝ, 1 ≤ (get_anime_rank_info pop score).total) := by
  constructor
  · intro score
    unfold get_anime_rank_info
    norm_num
    rw [@round1_eq_of (100 : ℝ) 1000 (by norm_num) (by norm_num)]
    norm_num
  · intro pop score
    unfold get_anime_rank_info
    dsimp only
    split_ifs with h
    · exact le_refl 1
    · omega

/-- C2, counterexample: a winner token outside the valid set (here `"3"`) is
not rejected: it is coerced to the draw outcome `0.5`, and the vote runs to
completion, incrementing both match counters. -/
theorem invalid_winner_coerced :
    actual_score_of "3" = 0.5 ∧ "3" ≠ "1" ∧ "3" ≠ "2" ∧
    ((vote [itemA, itemB] 1 2 .story "3").map fun l => l.map Anime.matches_played) =
      some [1, 1] := by
  refine ⟨?_, by decide, by decide, ?_⟩
  · unfold actual_score_of
    rw [if_neg (by decide), if_neg (by decide)]
  · rfl

/-- C2, amended: the vote handler coerces every winner token other than `"1"`
and `"2"` to the draw outcome `0.5` instead of rejecting it; consequently the
rating update is only ever invoked with an outcome in `{0.0, 0.5, 1.0}`. -/
theorem winner_outcome_always_valid :
    (∀ w : String, actual_score_of w = 1 ∨ actual_score_of w = 0.5 ∨ actual_score_of w = 0) ∧
    (∀ w : String, w ≠ "1" → w ≠ "2" → actual_score_of w = 0.5) := by
  constructor
  · intro w
    unfold actual_score_of
    split_ifs with h1 h2
    · exact Or.inl rfl
    · exact Or.inr (Or.inr rfl)
    · exact Or.inr (Or.inl rfl)
  · intro w h1 h2
    unfold actual_score_of
    rw [if_neg h1, if_neg h2]

/-- Witness for C2's amended theorem: the coercion instantiated at the token
`"x"`, with both disequality hypotheses discharged. -/
theorem winner_outcome_always_valid_witness :
    ("x" ≠ "1" ∧ "x" ≠ "2") ∧ actual_score_of "x" = 0.5 :=
  ⟨⟨by decide, by decide⟩, winner_outcome_always_valid.2 "x" (by decide) (by decide)⟩

theorem rating_setRating_same (a : Anime) (d : Dim) (v : ℝ) :
    rating (setRating a d v) d = v := by
  cases d <;> rfl

theorem rating_setRating_ne (a : Anime) (d d2 : Dim) (v : ℝ) (h : d2 ≠ d) :
    rating (setRating a d v) d2 = rating a d2 := by
  cases d <;> cases d2 <;> first | rfl | exact absurd rfl h

theorem id_setRating (a : Anime) (d : Dim) (v : ℝ) : (setRating a d v).id = a.id := by
  cases d <;> rfl

theorem name_setRating (a : Anime) (d : Dim) (v : ℝ) : (setRating a d v).name = a.name := by
  cases d <;> rfl

theorem matches_setRating (a : Anime) (d : Dim) (v : ℝ) :
    (setRating a d v).matches_played = a.matches_played := by
  cases d <;> rfl

theorem origRank_setRating (a : Anime) (d : Dim) (v : ℝ) :
    (setRating a d v).original_rank = a.original_rank := by
  cases d <;> rfl

theorem rating_setMatches (a : Anime) (n : ℕ) (d : Dim) :
    rating (setMatches a n) d = rating a d := by
  cases d <;> rfl

theorem length_normalizeStep (l : List Anime) (d : Dim) :
    (normalizeStep l d).length = l.length := by
  unfold normalizeStep
  dsimp only
  split_ifs <;> simp

theorem normalizeVals_length (vals : List ℝ) : (normalizeVals vals).length = vals.length := by
  unfold normalizeVals
  dsimp only
  split_ifs <;> simp

theorem map_rating_normalizeStep (l : List Anime) (d d2 : Dim) :
    ((normalizeStep l d2).map fun a => rating a d) =
      if d = d2 then normalizeVals (l.map fun a => rating a d)
      else l.map fun a => rating a d := by
  by_cases hdd : d = d2
  · subst hdd
    rw [if_pos rfl]
    unfold normalizeStep normalizeVals
    simp only [List.length_map]
    split_ifs with h
    · simp only [List.map_map]
      apply List.map_congr_left
      intro a ha
      simp [Function.comp, rating_setRating_same]
    · rfl
  · rw [if_neg hdd]
    unfold normalizeStep
    dsimp only
    split_ifs with h
    · simp only [List.map_map]
      apply List.map_congr_left
      intro a ha
      simp [Function.comp, rating_setRating_ne _ _ _ _ hdd]
    · rfl

theorem map_rating_normalize (l : List Anime) (hl : l ≠ []) (d : Dim) :
    ((normalize_scores_task l).map fun a => rating a d) =
      normalizeVals (l.map fun a => rating a d) := by
  have hne : ¬ l.isEmpty := by simpa [List.isEmpty_iff] using hl
  unfold normalize_scores_task DIMS
  rw [if_neg hne]
  simp only [List.foldl_cons, List.foldl_nil]
  cases d <;> simp [map_rating_normalizeStep]

theorem length_normalize (l : List Anime) :
    (normalize_scores_task l).length = l.length := by
  unfold normalize_scores_task DIMS
  split_ifs
  · rfl
  · simp [List.foldl_cons, List.foldl_nil, length_normalizeStep]

theorem sum_map_sub (vals : List ℝ) (c : ℝ) :
    (vals.map fun v => v - c).sum = vals.sum - (vals.length : ℝ) * c := by
  induction vals with
  | nil => simp
  | cons x xs ih =>
    simp only [List.map_cons, List.sum_cons, ih, List.length_cons]
    push_cast
    ring

theorem normalizeVals_shift (vals : List ℝ)
    (h : 1 < |vals.sum / (vals.length : ℝ) - 1200|) :
    normalizeVals vals = vals.map fun v => v - (vals.sum / (vals.length : ℝ) - 1200) := by
  unfold normalizeVals
  rw [if_pos h]

theorem normalizeVals_skip (vals : List ℝ)
    (h : |vals.sum / (vals.length : ℝ) - 1200| ≤ 1) :
    normalizeVals vals = vals := by
  unfold normalizeVals
  rw [if_neg (not_lt.mpr h)]

theorem normalizeVals_drift_small (vals : List ℝ) (hv : vals ≠ []) :
    |(normalizeVals vals).sum / ((normalizeVals vals).length : ℝ) - 1200| ≤ 1 := by
  have hn : (0 : ℝ) < (vals.length : ℝ) := by
    have := List.length_pos.mpr hv
    exact_mod_cast this
  unfold normalizeVals
  dsimp only
  split_ifs with h
  · rw [sum_map_sub, List.length_map]
    have hmean : (vals.sum - (vals.length : ℝ) * (vals.sum / (vals.length : ℝ) - 1200)) /
        (vals.length : ℝ) = 1200 := by
      field_simp
    rw [hmean]
    norm_num
  · exact not_lt.mp h

theorem normalizeStep_id (l : List Anime) (d : Dim)
    (h : ¬ 1 < |(l.map fun a => rating a d).sum / (l.length : ℝ) - 1200|) :
    normalizeStep l d = l := by
  unfold normalizeStep
  rw [if_neg h]

theorem normalize_idem (l : List Anime) :
    normalize_scores_task (normalize_scores_task l) = normalize_scores_task l := by
  by_cases hl : l = []
  · subst hl
    rfl
  · have hl2 : normalize_scores_task l ≠ [] := by
      intro hc
      have := length_normalize l
      rw [hc] at this
      exact hl (List.length_eq_zero.mp this.symm)
    have hstep : ∀ d, normalizeStep (normalize_scores_task l) d = normalize_scores_task l := by
      intro d
      apply normalizeStep_id
      have hmap := map_rating_normalize l hl d
      have hmean := normalizeVals_drift_small (l.map fun a => rating a d)
        (by simpa using hl)
      rw [normalizeVals_length, List.length_map] at hmean
      rw [hmap, length_normalize l]
      exact not_lt.mpr hmean
    have hne2 : ¬ (normalize_scores_task l).isEmpty := by
      simpa [List.isEmpty_iff] using hl2
    have hunfold : normalize_scores_task (normalize_scores_task l) =
        if (normalize_scores_task l).isEmpty then normalize_scores_task l
        else DIMS.foldl normalizeStep (normalize_scores_task l) := rfl
    rw [hunfold, if_neg hne2]
    unfold DIMS
    simp only [List.foldl_cons, List.foldl_nil, hstep]

/-- C4: one Normalizer run on a non-empty population, for each dimension
independently: when the mean drifts beyond the threshold `1.0` it subtracts the
drift from every item's value in that dimension, leaving the new mean exactly
`1200.0`; otherwise the dimension is untouched; and a second run immediately
after the first performs no writes at all. -/
theorem normalizer_recenters (l : List Anime) (hl : l ≠ []) (d : Dim) :
    (1 < |(l.map fun a => rating a d).sum / (l.length : ℝ) - 1200| →
      ((normalize_scores_task l).map fun a => rating a d) =
        (l.map fun a => rating a d).map
          (fun v => v - ((l.map fun a => rating a d).sum / (l.length : ℝ) - 1200)) ∧
      ((normalize_scores_task l).map fun a => rating a d).sum / (l.length : ℝ) = 1200) ∧
    (|(l.map fun a => rating a d).sum / (l.length : ℝ) - 1200| ≤ 1 →
      ((normalize_scores_task l).map fun a => rating a d) = l.map fun a => rating a d) ∧
    normalize_scores_task (normalize_scores_task l) = normalize_scores_task l := by
  have hmap := map_rating_normalize l hl d
  have hn : (0 : ℝ) < (l.length : ℝ) := by
    have := List.length_pos.mpr hl
    exact_mod_cast this
  refine ⟨?_, ?_, normalize_idem l⟩
  · intro h
    have h2 : 1 < |(l.map fun a => rating a d).sum /
        (((l.map fun a => rating a d).length : ℕ) : ℝ) - 1200| := by
      rw [List.length_map]
      exact h
    constructor
    · rw [hmap, normalizeVals_shift _ h2, List.length_map]
    · rw [hmap, normalizeVals_shift _ h2, sum_map_sub, List.length_map]
      field_simp
  · intro h
    have h2 : |(l.map fun a => rating a d).sum /
        (((l.map fun a => rating a d).length : ℕ) : ℝ) - 1200| ≤ 1 := by
      rw [List.length_map]
      exact h
    rw [hmap, normalizeVals_skip _ h2]

/-- Witness for C4: the near-idempotence conclusion instantiated on a concrete
one-item population whose ratings have drifted to 1215, with the
non-emptiness hypothesis discharged. -/
theorem normalizer_recenters_witness :
    ([itemDrift] : List Anime) ≠ [] ∧
    normalize_scores_task (normalize_scores_task [itemDrift]) =
      normalize_scores_task [itemDrift] :=
  ⟨by simp, (normalizer_recenters [itemDrift] (by simp) Dim.story).2.2⟩

theorem pick_mem (l : List Anime) (r : ℕ) (x : Anime) (h : pick l r = some x) : x ∈ l := by
  unfold pick at h
  exact List.get?_mem h

theorem get_match_pair_fst_mem (pop : List Anime) (focus_id : Option ℕ)
    (r1 : ℕ) (a1 : Anime)
    (h : (if focus_id.getD 0 ≠ 0 then pop.find? fun a => a.id == focus_id.getD 0
      else pick pop r1) = some a1) : a1 ∈ pop := by
  split_ifs at h with hf
  · exact List.mem_of_find?_eq_some h
  · exact pick_mem _ _ _ h

theorem get_match_pair_snd_some (pop : List Anime) (focus_id : Option ℕ) (use_smart : Bool)
    (r1 r2 r3 : ℕ) (y : Anime)
    (h : (get_match_pair pop focus_id use_smart r1 r2 r3).2 = some y) :
    ∃ a1, (get_match_pair pop focus_id use_smart r1 r2 r3).1 = some a1 ∧
      a1 ∈ pop ∧ y ∈ pop ∧ y.id ≠ a1.id := by
  unfold get_match_pair at h ⊢
  dsimp only at h ⊢
  cases ha1 : (if focus_id.getD 0 ≠ 0 then pop.find? fun a => a.id == focus_id.getD 0
      else pick pop r1) with
  | none =>
    rw [ha1] at h
    simp at h
  | some a1 =>
    rw [ha1] at h
    dsimp only at h ⊢
    have ha1mem : a1 ∈ pop := get_match_pair_fst_mem pop focus_id r1 a1 ha1
    refine ⟨a1, ?_, ha1mem, ?_⟩
    · cases ha2 : (if use_smart = true then pick (pop.filter fun a =>
          a.id != a1.id && decide (a1.rating_fun - MATCH_SCORE_RANGE ≤ a.rating_fun) &&
            decide (a.rating_fun ≤ a1.rating_fun + MATCH_SCORE_RANGE)) r2 else none) with
      | none => rfl
      | some a2 => rfl
    · cases ha2 : (if use_smart = true then pick (pop.filter fun a =>
          a.id != a1.id && decide (a1.rating_fun - MATCH_SCORE_RANGE ≤ a.rating_fun) &&
            decide (a.rating_fun ≤ a1.rating_fun + MATCH_SCORE_RANGE)) r2 else none) with
      | none =>
        rw [ha2] at h
        replace h : pick (pop.filter fun a => a.id != a1.id) r3 = some y := h
        have hy := pick_mem _ _ _ h
        simp only [List.mem_filter, bne_iff_ne, ne_eq] at hy
        exact ⟨hy.1, hy.2⟩
      | some a2 =>
        rw [ha2] at h
        replace h : (some a2 : Option Anime) = some y := h
        have hyeq : a2 = y := by
          injection h
        subst hyeq
        have hpick : pick (pop.filter fun a =>
            a.id != a1.id && decide (a1.rating_fun - MATCH_SCORE_RANGE ≤ a.rating_fun) &&
              decide (a.rating_fun ≤ a1.rating_fun + MATCH_SCORE_RANGE)) r2 = some a2 := by
          cases use_smart with
          | true => exact ha2
          | false => exact Option.noConfusion ha2
        have hy := pick_mem _ _ _ hpick
        simp only [List.mem_filter, Bool.and_eq_true, bne_iff_ne, ne_eq,
          decide_eq_true_eq] at hy
        exact ⟨hy.1, hy.2.1.1⟩

/-- C7, counterexample: a focus id of `0` is falsy in Python, so
`get_match_pair` silently falls back to non-focus mode: on a two-item
population with no item of id 0 it returns a full pair instead of signaling
that the focus item does not exist. -/
theorem focus_zero_not_failure :
    (get_match_pair [itemA, itemB] (some 0) false 0 0 0).1.isSome = true ∧
    (get_match_pair [itemA, itemB] (some 0) false 0 0 0).2.isSome = true ∧
    ([itemA, itemB].find? fun a => a.id == 0) = none := by
  exact ⟨rfl, rfl, rfl⟩

/-- C7, amended: whenever `get_match_pair` returns a pair the two items have
distinct ids; with fewer than 2 items no pair is returned; a nonzero focus id
that matches no item yields the `(None, None)` failure; but a focus id of `0`
is treated exactly like non-focus mode (Python truthiness) rather than as a
missing focus item. -/
theorem match_pair_contract :
    (∀ pop : List Anime, ∀ focus_id : Option ℕ, ∀ use_smart : Bool, ∀ r1 r2 r3 : ℕ,
      ∀ x y : Anime, get_match_pair pop focus_id use_smart r1 r2 r3 = (some x, some y) →
        x.id ≠ y.id) ∧
    (∀ pop : List Anime, ∀ focus_id : Option ℕ, ∀ use_smart : Bool, ∀ r1 r2 r3 : ℕ,
      pop.length < 2 → (get_match_pair pop focus_id use_smart r1 r2 r3).2 = none) ∧
    (∀ pop : List Anime, ∀ fid : ℕ, ∀ use_smart : Bool, ∀ r1 r2 r3 : ℕ, fid ≠ 0 →
      (pop.find? fun a => a.id == fid) = none →
      get_match_pair pop (some fid) use_smart r1 r2 r3 = (none, none)) ∧
    (∀ pop : List Anime, ∀ use_smart : Bool, ∀ r1 r2 r3 : ℕ,
      get_match_pair pop (some 0) use_smart r1 r2 r3 =
        get_match_pair pop none use_smart r1 r2 r3) := by
  refine ⟨?_, ?_, ?_, ?_⟩
  · intro pop focus_id use_smart r1 r2 r3 x y h
    have h2 : (get_match_pair pop focus_id use_smart r1 r2 r3).2 = some y := by
      rw [h]
    obtain ⟨a1, hfst, _, _, hne⟩ :=
      get_match_pair_snd_some pop focus_id use_smart r1 r2 r3 y h2
    have hx : a1 = x := by
      rw [h] at hfst
      exact (Option.some.inj hfst).symm
    subst hx
    exact fun he => hne he.symm
  · intro pop focus_id use_smart r1 r2 r3 hlen
    cases hsnd : (get_match_pair pop focus_id use_smart r1 r2 r3).2 with
    | none => rfl
    | some y =>
      obtain ⟨a1, _, ha1, hy, hne⟩ :=
        get_match_pair_snd_some pop focus_id use_smart r1 r2 r3 y hsnd
      exfalso
      match pop, hlen with
      | [], _ => exact absurd ha1 (List.not_mem_nil a1)
      | [z], _ =>
        have h1 : a1 = z := by simpa using ha1
        have h2 : y = z := by simpa using hy
        exact hne (by rw [h1, h2])
  · intro pop fid use_smart r1 r2 r3 hfid hfind
    unfold get_match_pair
    dsimp only
    simp only [Option.getD]
    rw [if_pos hfid, hfind]
  · intro pop use_smart r1 r2 r3
    rfl

/-- Witness for C7's amended theorem: distinctness instantiated on a concrete
two-item population, with the returned-pair hypothesis discharged by
evaluation. -/
theorem match_pair_contract_witness :
    get_match_pair [itemA, itemB] none false 0 0 0 = (some itemA, some itemB) ∧
    itemA.id ≠ itemB.id :=
  ⟨rfl, match_pair_contract.1 [itemA, itemB] none false 0 0 0 itemA itemB rfl⟩

/-- C9: processing one vote on dimension `d` between two distinct participants
mutates exactly the two participants' values in dimension `d` (to the Elo
update results) and their shared match counters (each incremented by exactly
1); every other rating dimension of the participants, their ids, names and
legacy ranks, and every other item are left unchanged. -/
theorem vote_frame_effect (pop : List Anime) (anime1_id anime2_id : ℕ) (d : Dim)
    (w : String) (A B : Anime)
    (hnd : (pop.map Anime.id).Nodup)
    (hne : anime1_id ≠ anime2_id)
    (hA : (pop.find? fun a => a.id == anime1_id) = some A)
    (hB : (pop.find? fun a => a.id == anime2_id) = some B) :
    (vote pop anime1_id anime2_id d w).isSome = true ∧
    ∀ res, vote pop anime1_id anime2_id d w = some res →
      List.Forall₂ (fun a a2 =>
        a2.id = a.id ∧ a2.name = a.name ∧ a2.original_rank = a.original_rank ∧
        (a.id ≠ anime1_id ∧ a.id ≠ anime2_id → a2 = a) ∧
        (a.id = anime1_id →
          a2.matches_played = a.matches_played + 1 ∧
          rating a2 d = (calculate_elo_update (rating A d) (rating B d) (actual_score_of w)
            A.matches_played B.matches_played).1 ∧
          ∀ d2, d2 ≠ d → rating a2 d2 = rating a d2) ∧
        (a.id = anime2_id →
          a2.matches_played = a.matches_played + 1 ∧
          rating a2 d = (calculate_elo_update (rating A d) (rating B d) (actual_score_of w)
            A.matches_played B.matches_played).2 ∧
          ∀ d2, d2 ≠ d → rating a2 d2 = rating a d2)) pop res := by
  have hAid : A.id = anime1_id := by simpa using List.find?_some hA
  have hBid : B.id = anime2_id := by simpa using List.find?_some hB
  have hAmem := List.mem_of_find?_eq_some hA
  have hBmem := List.mem_of_find?_eq_some hB
  constructor
  · unfold vote
    rw [hA, hB]
    rfl
  · intro res hres
    unfold vote at hres
    rw [hA, hB] at hres
    dsimp only at hres
    have hmap : (pop.map fun a =>
        if a.id = anime1_id then
          setMatches (setRating A d (calculate_elo_update (rating A d) (rating B d)
            (actual_score_of w) A.matches_played B.matches_played).1) (A.matches_played + 1)
        else if a.id = anime2_id then
          setMatches (setRating B d (calculate_elo_update (rating A d) (rating B d)
            (actual_score_of w) A.matches_played B.matches_played).2) (B.matches_played + 1)
        else a) = res := Option.some.inj hres
    subst hmap
    rw [List.forall₂_map_right_iff, List.forall₂_same]
    intro a ha
    by_cases h1 : a.id = anime1_id
    · have haA : a = A :=
        List.inj_on_of_nodup_map hnd ha hAmem (by rw [h1, hAid])
      subst haA
      simp only [if_pos h1]
      refine ⟨?_, ?_, ?_, ?_, ?_, ?_⟩
      · cases d <;> rfl
      · cases d <;> rfl
      · cases d <;> rfl
      · intro hc
        exact absurd h1 hc.1
      · intro _
        refine ⟨by cases d <;> rfl, ?_, ?_⟩
        · rw [rating_setMatches, rating_setRating_same]
        · intro d2 hd2
          rw [rating_setMatches, rating_setRating_ne _ _ _ _ hd2]
      · intro hc
        exact absurd (h1.symm.trans hc) hne
    · by_cases h2 : a.id = anime2_id
      · have haB : a = B :=
          List.inj_on_of_nodup_map hnd ha hBmem (by rw [h2, hBid])
        subst haB
        simp only [if_neg h1, if_pos h2]
        refine ⟨?_, ?_, ?_, ?_, ?_, ?_⟩
        · cases d <;> rfl
        · cases d <;> rfl
        · cases d <;> rfl
        · intro hc
          exact absurd h2 hc.2
        · intro hc
          exact absurd hc h1
        · intro _
          refine ⟨by cases d <;> rfl, ?_, ?_⟩
          · rw [rating_setMatches, rating_setRating_same]
          · intro d2 hd2
            rw [rating_setMatches, rating_setRating_ne _ _ _ _ hd2]
      · simp only [if_neg h1, if_neg h2]
        simp [h1, h2]

/-- Witness for C9: the frame theorem instantiated on a concrete two-item
store, with the uniqueness, distinctness and lookup hypotheses discharged. -/
theorem vote_frame_effect_witness :
    ((([itemA, itemB] : List Anime).map Anime.id).Nodup ∧ (1 : ℕ) ≠ 2 ∧
      (([itemA, itemB] : List Anime).find? fun a => a.id == 1) = some itemA ∧
      (([itemA, itemB] : List Anime).find? fun a => a.id == 2) = some itemB) ∧
    (vote [itemA, itemB] 1 2 Dim.story "1").isSome = true :=
  ⟨⟨by decide, by decide, rfl, rfl⟩,
    (vote_frame_effect [itemA, itemB] 1 2 Dim.story "1" itemA itemB
      (by decide) (by decide) rfl rfl).1⟩

end

end AnimeRanker
